import Mathlib

/-!
Verification of the rate-limited retrying completion client
(`src/bot/openrouter_client.py`) and the bounded conversation store of the
DeepseekDiscordAI repository, against its natural-language specification.

The client is embedded shallowly: the remote network is abstracted as a
script `attempts : Nat -> Attempt` giving, for each attempt index, the
outcome of the network call (HTTP response with status and body, local
timeout, or a transport/other exception) together with the wall-clock time
the call consumed.  Time is modelled as a rational-number clock threaded
through the computation; `asyncio.sleep(d)` advances it by `d`.
-/

namespace DeepseekBot

/-- A chat message as passed around by the Python code: a loosely typed
dict with a `role` entry (absent keys read as `None` via `.get`) and a
`content` string. -/
structure Msg where
  role : Option String
  content : String
deriving DecidableEq, Repr

/-- Configuration fields of `BotConfig` (src/bot/config.py) consumed by
`OpenRouterClient`.  `rate_limit_window` and `rate_limit_requests` are ints,
`retry_delay_base` a float; the clock and delays are modelled over `Rat`. -/
structure BotConfig where
  systemPrompt : String
  modelName : String
  maxResponseLength : Nat
  rateLimitRequests : Nat
  rateLimitWindow : Rat
  retryDelayBase : Rat
  maxRetries : Nat
deriving DecidableEq, Repr

/-- The reference configuration: the default values read by
`BotConfig.__init__` when no environment variables are set
(src/bot/config.py lines 24-31). -/
def defaultConfig : BotConfig where
  systemPrompt := "You are a friendly and helpful AI assistant on Discord."
  modelName := "deepseek/deepseek-r1-0528-qwen3-8b:free"
  maxResponseLength := 2000
  rateLimitRequests := 10
  rateLimitWindow := 60
  retryDelayBase := 1
  maxRetries := 3

/-- The JSON body of an HTTP response from the remote API, as far as
`generate_response` inspects it.  `choices := none` models a body without a
`"choices"` key; each list element models `choices[i]`, with `some s` when
`choices[i]["message"]["content"]` exists and is the string `s`, and `none`
when that extraction would raise (missing `"message"` or `"content"` key). -/
structure RespBody where
  choices : Option (List (Option String))
deriving DecidableEq, Repr

/-- Outcome of one network call attempt: an HTTP response with a status
code and body, expiry of the per-attempt deadline (`asyncio.TimeoutError`),
or any other exception (`except Exception as e`) with its `str(e)` text. -/
inductive AttemptOutcome where
  | http (status : Nat) (body : RespBody)
  | timeout
  | exc (msg : String)
deriving DecidableEq, Repr

/-- One scripted attempt: its outcome and the wall-clock time the network
call consumed before that outcome was observed. -/
structure Attempt where
  outcome : AttemptOutcome
  duration : Rat
deriving DecidableEq, Repr

/-- The JSON request payload built by `generate_response`
(src/bot/openrouter_client.py lines 110-117). -/
structure RequestPayload where
  model : String
  messages : List Msg
  maxTokens : Nat
  temperature : Rat
  topP : Rat
  stream : Bool
deriving DecidableEq, Repr

/-- The value returned by `generate_response`, one constructor per
`return` statement.  `GenResult.toPy` collapses this to the Python return
type `Optional[str]`. -/
inductive GenResult where
  /-- line 134: `return content.strip()` -/
  | success (reply : String)
  /-- line 137: `return None` (no/empty `choices` in a 200 body) -/
  | noChoices
  /-- line 149: terminal message after 429s -/
  | rateLimitedMsg
  /-- line 160: terminal message after other HTTP errors -/
  | apiErrorMsg (status : Nat)
  /-- line 166: terminal message after timeouts -/
  | timeoutMsg
  /-- line 172: terminal message after other exceptions -/
  | unexpectedMsg (e : String)
deriving DecidableEq, Repr

/-- The `Optional[str]` value each `return` statement of
`generate_response` produces. -/
def GenResult.toPy : GenResult → Option String
  | .success reply => some reply
  | .noChoices => none
  | .rateLimitedMsg => some "Sorry, I'm currently rate limited. Please try again later."
  | .apiErrorMsg status => some ("Sorry, I encountered an error: " ++ toString status)
  | .timeoutMsg => some "Sorry, the request timed out. Please try again."
  | .unexpectedMsg e => some ("Sorry, I encountered an unexpected error: " ++ e)

/-- Mutable state of an `OpenRouterClient` together with the current clock:
`request_times` is the ledger list, `now` the value `time.time()` returns. -/
structure ClientState where
  requestTimes : List Rat
  now : Rat
deriving DecidableEq, Repr

/-- Events observable in a run of `generate_response`, in program order. -/
inductive Event where
  /-- entry into `_check_rate_limit` -/
  | budgetCheck
  /-- `asyncio.sleep(wait_time)` inside `_wait_for_rate_limit` (the slept amount) -/
  | rateWait (d : Rat)
  /-- `_record_request()` appending timestamp `t` to the ledger -/
  | record (t : Rat)
  /-- `session.post(...)` issued with the given JSON payload -/
  | send (p : RequestPayload)
  /-- `asyncio.sleep(delay)` of the retry backoff -/
  | backoff (d : Rat)
deriving DecidableEq, Repr

/-- `_check_rate_limit` (lines 44-55): prune ledger entries outside the
window, store the pruned ledger back, and report whether another request is
allowed. -/
def checkRateLimit (cfg : BotConfig) (st : ClientState) : ClientState × Bool :=
  let pruned := st.requestTimes.filter (fun reqTime => st.now - reqTime < cfg.rateLimitWindow)
  (⟨pruned, st.now⟩, pruned.length < cfg.rateLimitRequests)

/-- Python's `min` on a list of floats (total, with an irrelevant default on
the empty list, which `_wait_for_rate_limit` never reaches). -/
def listMin : List Rat → Rat
  | [] => 0
  | t :: ts => ts.foldl min t

/-- `_wait_for_rate_limit` (lines 61-71): the amount of time slept — `0`
when the ledger is empty or the computed wait is not positive (the sleep is
skipped), otherwise `window - (now - oldest)`. -/
def waitForRateLimit (cfg : BotConfig) (st : ClientState) : Rat :=
  if st.requestTimes.isEmpty then 0
  else
    let oldest := listMin st.requestTimes
    let waitTime := cfg.rateLimitWindow - (st.now - oldest)
    if 0 < waitTime then waitTime else 0

/-- Lines 103-108: prepend the configured system turn when the message list
is empty or its first element's role is not `"system"`; the caller's list is
mutated in place (`messages.insert(0, ...)`). -/
def addSystemPrompt (cfg : BotConfig) (messages : List Msg) : List Msg :=
  match messages with
  | [] => [⟨some "system", cfg.systemPrompt⟩]
  | m :: _ =>
    if m.role = some "system" then messages
    else ⟨some "system", cfg.systemPrompt⟩ :: messages

/-- Lines 110-117: the JSON request payload. -/
def buildPayload (cfg : BotConfig) (messages : List Msg) : RequestPayload where
  model := cfg.modelName
  messages := messages
  maxTokens := cfg.maxResponseLength
  temperature := 7 / 10
  topP := 9 / 10
  stream := false

/-- Lines 144 and 156: `delay = self.config.retry_delay_base * (2 ** retry_count)`. -/
def retryDelay (cfg : BotConfig) (retryCount : Nat) : Rat :=
  cfg.retryDelayBase * 2 ^ retryCount

/-- Python's `str.strip()` with no argument: remove leading and trailing
whitespace. -/
def pyStrip (s : String) : String :=
  ⟨((s.data.dropWhile Char.isWhitespace).reverse.dropWhile Char.isWhitespace).reverse⟩

/-- The text of `str(e)` for the `KeyError` raised by
`data["choices"][0]["message"]["content"]` when the first choice lacks a
content string; it lands in the `except Exception` handler. -/
def keyErrorContent : String := "'content'"

/-- How `generate_response` reacts to one attempt's outcome (lines
128-172): immediate success, immediate `return None`, or a retryable
failure carrying whether a backoff sleep precedes the retry and which
terminal result is returned once `max_retries` is exhausted. -/
inductive StepKind where
  | success (reply : String)
  | terminalNone
  | retry (sleeps : Bool) (terminal : GenResult)
deriving DecidableEq, Repr

/-- Classification of each branch of lines 128-172:
* status 200 with a nonempty `choices` whose first element has a content
  string `s` — success with `s.strip()` (line 134);
* status 200 with a nonempty `choices` whose first element lacks content —
  the extraction raises and the `except Exception` branch retries with no
  sleep (lines 168-172);
* status 200 with `choices` missing or empty — `return None` (line 137);
* status 429 — retry after a backoff sleep, terminally the rate-limited
  message (lines 139-149);
* any other status — retry after a backoff sleep, terminally the formatted
  error message (lines 151-160);
* timeout — retry with no sleep, terminally the timeout message (162-166);
* other exception — retry with no sleep, terminally the unexpected-error
  message (168-172). -/
def classify : AttemptOutcome → StepKind
  | .http status body =>
    if status = 200 then
      match body.choices with
      | some (some content :: _) => .success (pyStrip content)
      | some (none :: _) => .retry false (.unexpectedMsg keyErrorContent)
      | some [] => .terminalNone
      | none => .terminalNone
    else if status = 429 then .retry true .rateLimitedMsg
    else .retry true (.apiErrorMsg status)
  | .timeout => .retry false .timeoutMsg
  | .exc e => .retry false (.unexpectedMsg e)

/-- Everything one call to `generate_response` leaves behind: the returned
value, the caller's (possibly mutated) message list, the client state, and
the ordered event trace. -/
structure GenOutput where
  result : GenResult
  messages : List Msg
  state : ClientState
  trace : List Event
deriving DecidableEq, Repr

/-- `generate_response` (lines 73-172).  Each invocation: checks the rate
budget and, when over it, sleeps out the deficit (lines 91-92); ensures the
message list starts with the system turn (103-108); builds the payload
(110-117); records the attempt timestamp (119); issues the network call
(121-126) whose scripted outcome for attempt `retryCount` is
`attempts retryCount`; and handles the outcome per `classify`, recursing
with `retryCount + 1` while `retryCount < max_retries`, sleeping the
exponential backoff first on the HTTP-failure branches. -/
def generateResponse (cfg : BotConfig) (attempts : Nat → Attempt)
    (messages : List Msg) (retryCount : Nat) (st : ClientState) : GenOutput :=
  let checked := checkRateLimit cfg st
  let waited := if checked.2 then 0 else waitForRateLimit cfg checked.1
  let waitEvents := if checked.2 then [] else [Event.rateWait waited]
  let stWaited : ClientState := ⟨checked.1.requestTimes, checked.1.now + waited⟩
  let msgs := addSystemPrompt cfg messages
  let payload := buildPayload cfg msgs
  let stRecorded : ClientState := ⟨stWaited.requestTimes ++ [stWaited.now], stWaited.now⟩
  let a := attempts retryCount
  let stAfter : ClientState := ⟨stRecorded.requestTimes, stRecorded.now + a.duration⟩
  let pre := Event.budgetCheck :: waitEvents ++ [Event.record stWaited.now, Event.send payload]
  match classify a.outcome with
  | .success reply => ⟨.success reply, msgs, stAfter, pre⟩
  | .terminalNone => ⟨.noChoices, msgs, stAfter, pre⟩
  | .retry sleeps terminal =>
    if _h : retryCount < cfg.maxRetries then
      let d := retryDelay cfg retryCount
      let backoffEvents := if sleeps then [Event.backoff d] else []
      let stSlept : ClientState :=
        if sleeps then ⟨stAfter.requestTimes, stAfter.now + d⟩ else stAfter
      let rest := generateResponse cfg attempts msgs (retryCount + 1) stSlept
      ⟨rest.result, rest.messages, rest.state, pre ++ backoffEvents ++ rest.trace⟩
    else ⟨terminal, msgs, stAfter, pre⟩
termination_by cfg.maxRetries - retryCount
decreasing_by omega

/-- The payload of a `send` event. -/
def Event.sentPayload : Event → Option RequestPayload
  | .send p => some p
  | _ => none

/-- The timestamp of a `record` event. -/
def Event.recordTime : Event → Option Rat
  | .record t => some t
  | _ => none

/-- The slept amount of a `backoff` event. -/
def Event.backoffAmount : Event → Option Rat
  | .backoff d => some d
  | _ => none

/-- The request payloads sent in a trace, in order: one per network call. -/
def sentPayloads (tr : List Event) : List RequestPayload :=
  tr.filterMap Event.sentPayload

/-- The ledger timestamps recorded in a trace, in order. -/
def recordedTimes (tr : List Event) : List Rat :=
  tr.filterMap Event.recordTime

/-- The backoff sleeps of a trace, in order: the delays inserted between
consecutive attempts. -/
def backoffs (tr : List Event) : List Rat :=
  tr.filterMap Event.backoffAmount

/-- The number of network calls (attempts) a trace shows. -/
def numSends (tr : List Event) : Nat :=
  (sentPayloads tr).length

/-- Whether a message list begins with a turn whose role is `"system"` —
the negation of the insertion condition on line 104. -/
def startsWithSystem : List Msg → Bool
  | [] => false
  | m :: _ => m.role = some "system"

/-- Whether an attempt outcome makes `generate_response` retry (when
retries remain): every outcome except a 200 response whose body yields a
reply or has no/empty `choices`. -/
def isRetryable (a : AttemptOutcome) : Bool :=
  match classify a with
  | .retry _ _ => true
  | _ => false

/-- The backoff sleep inserted after attempt `n` when its outcome is
retried: `retry_delay_base * 2 ** n` on the HTTP branches (status 429 and
other non-200 statuses, lines 144 and 156), nothing on the timeout and
exception branches (lines 162-172, which recurse without sleeping). -/
def backoffOf (cfg : BotConfig) (n : Nat) (a : AttemptOutcome) : Option Rat :=
  match a with
  | .http status _ => if status = 200 then none else some (retryDelay cfg n)
  | .timeout => none
  | .exc _ => none

/-- How many attempts a call entering `generate_response` with the given
`retryCount` performs: one more per retryable outcome while
`retryCount < max_retries`, then the final one. -/
def attemptsUsed (cfg : BotConfig) (attempts : Nat → Attempt) (retryCount : Nat) : Nat :=
  match classify (attempts retryCount).outcome with
  | .retry _ _ =>
    if _h : retryCount < cfg.maxRetries then attemptsUsed cfg attempts (retryCount + 1) + 1
    else 1
  | _ => 1
termination_by cfg.maxRetries - retryCount
decreasing_by omega

/-- The events of one attempt: the budget check, the rate-limit sleep when
one happened, the ledger record immediately followed by the network call,
and the backoff sleep when one followed. -/
def attemptBlock (wait : Option Rat) (t : Rat) (p : RequestPayload) (back : Option Rat) :
    List Event :=
  Event.budgetCheck :: (wait.map Event.rateWait).toList
    ++ [Event.record t, Event.send p] ++ (back.map Event.backoff).toList

/-!
## The Conversation Store

Modelled from the spec: `discord_client.py` imports `ChatManager` from
`bot.chat_manager`, but `src/bot/chat_manager.py` is not among the
repository's source files.  The definitions below follow the spec's §3-§4.1:
a `Turn` is `{role, content}`; one capped ordered log of turns per
conversation key (a channel id or a user id); `append` adds a turn to the
key's log, evicting the oldest turn first when the append would exceed the
capacity `maxTurns`, regardless of the evicted turn's role; `context`
returns the key's current ordered log, empty for an unseen key.
-/

/-- Modelled from the spec: one message of a conversation, tagged with its
role (spec §3, "Turn"). -/
structure Turn where
  role : String
  content : String
deriving DecidableEq, Repr

/-- Modelled from the spec: a conversation key is a channel identifier or a
user identifier (spec §3, "ConversationKey"). -/
inductive ConversationKey where
  | channel (id : Nat)
  | user (id : Nat)
deriving DecidableEq, Repr

/-- Modelled from the spec: append one turn to a capped log, evicting the
oldest turns first when the result would exceed `maxTurns` (spec §3,
"ConversationLog" invariant). -/
def appendTurn (maxTurns : Nat) (log : List Turn) (t : Turn) : List Turn :=
  let grown := log ++ [t]
  if maxTurns < grown.length then grown.drop (grown.length - maxTurns) else grown

/-- Modelled from the spec: the Conversation Store, a per-key map of capped
logs; keys never appended to map to the empty log (spec §4.1). -/
structure ChatManager where
  maxTurns : Nat
  logs : ConversationKey → List Turn

/-- Modelled from the spec: a fresh store tracking no conversation. -/
def ChatManager.empty (maxTurns : Nat) : ChatManager :=
  ⟨maxTurns, fun _ => []⟩

/-- Modelled from the spec: `append(key, role, content)` — appends a turn
to `key`'s log only, creating it if absent, evicting the oldest turn at
capacity (spec §4.1). -/
def ChatManager.append (s : ChatManager) (key : ConversationKey) (t : Turn) : ChatManager :=
  ⟨s.maxTurns, fun k => if k = key then appendTurn s.maxTurns (s.logs key) t else s.logs k⟩

/-- Modelled from the spec: `context(key)` — the current ordered sequence
of turns for `key`, empty if unseen; read-only (spec §4.1). -/
def ChatManager.context (s : ChatManager) (key : ConversationKey) : List Turn :=
  s.logs key

/-- The last `n` elements of a list. -/
def lastN (n : Nat) (l : List Turn) : List Turn :=
  l.drop (l.length - n)

/-- The result of a call depends only on the retry bound and the attempt
outcomes: the projection of `generateResponse` onto its returned value. -/
def resultOf (maxRetries : Nat) (attempts : Nat → Attempt) (retryCount : Nat) : GenResult :=
  match classify (attempts retryCount).outcome with
  | .success reply => .success reply
  | .terminalNone => .noChoices
  | .retry _ terminal =>
    if _h : retryCount < maxRetries then resultOf maxRetries attempts (retryCount + 1)
    else terminal
termination_by maxRetries - retryCount
decreasing_by omega

/-!
## Basic lemmas about the embedded operations
-/

theorem addSystemPrompt_of_starts (cfg : BotConfig) (ms : List Msg)
    (h : startsWithSystem ms = true) : addSystemPrompt cfg ms = ms := by
  cases ms with
  | nil => simp [startsWithSystem] at h
  | cons m rest => simp [startsWithSystem] at h; simp [addSystemPrompt, h]

theorem addSystemPrompt_of_not_starts (cfg : BotConfig) (ms : List Msg)
    (h : startsWithSystem ms = false) :
    addSystemPrompt cfg ms = Msg.mk (some "system") cfg.systemPrompt :: ms := by
  cases ms with
  | nil => simp [addSystemPrompt]
  | cons m rest => simp [startsWithSystem] at h; simp [addSystemPrompt, h]

theorem startsWithSystem_addSystemPrompt (cfg : BotConfig) (ms : List Msg) :
    startsWithSystem (addSystemPrompt cfg ms) = true := by
  cases ms with
  | nil => simp [addSystemPrompt, startsWithSystem]
  | cons m rest =>
    by_cases h : m.role = some "system" <;> simp [addSystemPrompt, h, startsWithSystem]

theorem addSystemPrompt_idem (cfg : BotConfig) (ms : List Msg) :
    addSystemPrompt cfg (addSystemPrompt cfg ms) = addSystemPrompt cfg ms :=
  addSystemPrompt_of_starts cfg _ (startsWithSystem_addSystemPrompt cfg ms)

theorem attemptsUsed_pos (cfg : BotConfig) (att : Nat → Attempt) (rc : Nat) :
    1 ≤ attemptsUsed cfg att rc := by
  rw [attemptsUsed]
  split
  · split <;> omega
  · omega

theorem generateResponse_messages (cfg : BotConfig) (att : Nat → Attempt)
    (ms : List Msg) (rc : Nat) (st : ClientState) :
    (generateResponse cfg att ms rc st).messages = addSystemPrompt cfg ms := by
  induction ms, rc, st using generateResponse.induct cfg att with
  | case1 ms rc st a reply hcl =>
    rw [generateResponse]; simp only [hcl]
  | case2 ms rc st a hcl =>
    rw [generateResponse]; simp only [hcl]
  | case3 ms rc st checked waited stWaited msgs stRecorded a stAfter sleeps terminal hcl hlt d stSlept ih =>
    rw [generateResponse]
    simp only [hcl, dif_pos hlt]
    exact ih.trans (addSystemPrompt_idem cfg ms)
  | case4 ms rc st a sleeps terminal hcl hlt =>
    rw [generateResponse]; simp only [hcl, dif_neg hlt]

theorem resultOf_aux (cfg : BotConfig) (att : Nat → Attempt) :
    ∀ (fuel rc : Nat), cfg.maxRetries - rc ≤ fuel → ∀ (ms : List Msg) (st : ClientState),
    (generateResponse cfg att ms rc st).result = resultOf cfg.maxRetries att rc := by
  intro fuel
  induction fuel with
  | zero =>
    intro rc hrc ms st
    rw [generateResponse, resultOf]
    cases hcl : classify (att rc).outcome with
    | success reply => simp only [hcl]
    | terminalNone => simp only [hcl]
    | retry sleeps terminal =>
      simp only [hcl, dif_neg (show ¬ rc < cfg.maxRetries by omega)]
  | succ n ih =>
    intro rc hrc ms st
    rw [generateResponse, resultOf]
    cases hcl : classify (att rc).outcome with
    | success reply => simp only [hcl]
    | terminalNone => simp only [hcl]
    | retry sleeps terminal =>
      by_cases hlt : rc < cfg.maxRetries
      · simp only [hcl, dif_pos hlt]
        by_cases hok : (checkRateLimit cfg st).2 <;> cases sleeps <;>
          simp [hok, ih (rc + 1) (by omega)]
      · simp only [hcl, dif_neg hlt]

theorem generateResponse_result (cfg : BotConfig) (att : Nat → Attempt)
    (ms : List Msg) (rc : Nat) (st : ClientState) :
    (generateResponse cfg att ms rc st).result = resultOf cfg.maxRetries att rc :=
  resultOf_aux cfg att (cfg.maxRetries - rc) rc le_rfl ms st

theorem sentPayloads_aux (cfg : BotConfig) (att : Nat → Attempt) :
    ∀ (fuel rc : Nat), cfg.maxRetries - rc ≤ fuel → ∀ (ms : List Msg) (st : ClientState),
    sentPayloads (generateResponse cfg att ms rc st).trace =
      List.replicate (attemptsUsed cfg att rc) (buildPayload cfg (addSystemPrompt cfg ms)) := by
  intro fuel
  induction fuel with
  | zero =>
    intro rc hrc ms st
    rw [generateResponse, attemptsUsed]
    cases hcl : classify (att rc).outcome with
    | success reply =>
      simp only [hcl]
      by_cases hok : (checkRateLimit cfg st).2 <;>
        simp [hok, sentPayloads, Event.sentPayload]
    | terminalNone =>
      simp only [hcl]
      by_cases hok : (checkRateLimit cfg st).2 <;>
        simp [hok, sentPayloads, Event.sentPayload]
    | retry sleeps terminal =>
      simp only [hcl, dif_neg (show ¬ rc < cfg.maxRetries by omega)]
      by_cases hok : (checkRateLimit cfg st).2 <;>
        simp [hok, sentPayloads, Event.sentPayload]
  | succ n ih =>
    intro rc hrc ms st
    rw [generateResponse, attemptsUsed]
    cases hcl : classify (att rc).outcome with
    | success reply =>
      simp only [hcl]
      by_cases hok : (checkRateLimit cfg st).2 <;>
        simp [hok, sentPayloads, Event.sentPayload]
    | terminalNone =>
      simp only [hcl]
      by_cases hok : (checkRateLimit cfg st).2 <;>
        simp [hok, sentPayloads, Event.sentPayload]
    | retry sleeps terminal =>
      by_cases hlt : rc < cfg.maxRetries
      · have ihr : ∀ st1, List.filterMap Event.sentPayload
            (generateResponse cfg att (addSystemPrompt cfg ms) (rc + 1) st1).trace =
            List.replicate (attemptsUsed cfg att (rc + 1)) (buildPayload cfg (addSystemPrompt cfg ms)) := by
          intro st1
          have hr := ih (rc + 1) (by omega) (addSystemPrompt cfg ms) st1
          rw [addSystemPrompt_idem] at hr
          simpa [sentPayloads] using hr
        simp only [hcl, dif_pos hlt]
        by_cases hok : (checkRateLimit cfg st).2 <;> cases sleeps <;>
          simp [hok, sentPayloads, Event.sentPayload, List.replicate_succ, ihr]
      · simp only [hcl, dif_neg hlt]
        by_cases hok : (checkRateLimit cfg st).2 <;>
          simp [hok, sentPayloads, Event.sentPayload]

theorem generateResponse_sentPayloads (cfg : BotConfig) (att : Nat → Attempt)
    (ms : List Msg) (rc : Nat) (st : ClientState) :
    sentPayloads (generateResponse cfg att ms rc st).trace =
      List.replicate (attemptsUsed cfg att rc) (buildPayload cfg (addSystemPrompt cfg ms)) :=
  sentPayloads_aux cfg att (cfg.maxRetries - rc) rc le_rfl ms st

theorem generateResponse_numSends (cfg : BotConfig) (att : Nat → Attempt)
    (ms : List Msg) (rc : Nat) (st : ClientState) :
    numSends (generateResponse cfg att ms rc st).trace = attemptsUsed cfg att rc := by
  rw [numSends, generateResponse_sentPayloads, List.length_replicate]

theorem isRetryable_retry {a : AttemptOutcome} (h : isRetryable a = true) :
    ∃ s t, classify a = .retry s t := by
  cases hcl : classify a with
  | success r => simp [isRetryable, hcl] at h
  | terminalNone => simp [isRetryable, hcl] at h
  | retry s t => exact ⟨s, t, rfl⟩

theorem backoffOf_of_classify (cfg : BotConfig) (n : Nat) {a : AttemptOutcome}
    {s : Bool} {t : GenResult} (h : classify a = .retry s t) :
    backoffOf cfg n a = if s then some (retryDelay cfg n) else none := by
  cases a with
  | http status body =>
    by_cases h200 : status = 200
    · subst h200
      rcases body with ⟨choices⟩
      rcases choices with _ | cs
      · simp [classify] at h
      · rcases cs with _ | ⟨c, rest⟩
        · simp [classify] at h
        · rcases c with _ | s0
          · simp [classify] at h
            obtain ⟨hs, ht⟩ := h
            subst hs
            simp [backoffOf]
          · simp [classify] at h
    · by_cases h429 : status = 429
      · subst h429
        simp [classify] at h
        obtain ⟨hs, ht⟩ := h
        subst hs
        simp [backoffOf, retryDelay]
      · simp [classify, h200, h429] at h
        obtain ⟨hs, ht⟩ := h
        subst hs
        simp [backoffOf, h200, retryDelay]
  | timeout =>
    simp [classify] at h
    obtain ⟨hs, ht⟩ := h
    subst hs
    simp [backoffOf]
  | exc e =>
    simp [classify] at h
    obtain ⟨hs, ht⟩ := h
    subst hs
    simp [backoffOf]

theorem retry_terminal_props {a : AttemptOutcome} {s : Bool} {t : GenResult}
    (h : classify a = .retry s t) :
    (∃ str, t.toPy = some str) ∧ ∀ r, t ≠ .success r := by
  cases a with
  | http status body =>
    by_cases h200 : status = 200
    · subst h200
      rcases body with ⟨choices⟩
      rcases choices with _ | cs
      · simp [classify] at h
      · rcases cs with _ | ⟨c, rest⟩
        · simp [classify] at h
        · rcases c with _ | s0
          · simp [classify] at h
            obtain ⟨hs, ht⟩ := h
            subst ht
            exact ⟨⟨_, rfl⟩, by simp⟩
          · simp [classify] at h
    · by_cases h429 : status = 429
      · subst h429
        simp [classify] at h
        obtain ⟨hs, ht⟩ := h
        subst ht
        exact ⟨⟨_, rfl⟩, by simp⟩
      · simp [classify, h200, h429] at h
        obtain ⟨hs, ht⟩ := h
        subst ht
        exact ⟨⟨_, rfl⟩, by simp⟩
  | timeout =>
    simp [classify] at h
    obtain ⟨hs, ht⟩ := h
    subst ht
    exact ⟨⟨_, rfl⟩, by simp⟩
  | exc e =>
    simp [classify] at h
    obtain ⟨hs, ht⟩ := h
    subst ht
    exact ⟨⟨_, rfl⟩, by simp⟩

theorem resultOf_exhausted (maxR : Nat) (att : Nat → Attempt)
    (h : ∀ n, isRetryable (att n).outcome = true) :
    ∀ (fuel rc : Nat), maxR - rc ≤ fuel → rc ≤ maxR →
    ∃ s t, classify (att maxR).outcome = .retry s t ∧ resultOf maxR att rc = t := by
  intro fuel
  induction fuel with
  | zero =>
    intro rc hf hle
    have hrcm : rc = maxR := by omega
    have hlt : ¬ rc < maxR := by omega
    obtain ⟨s, t, hcl⟩ := isRetryable_retry (h rc)
    refine ⟨s, t, by rw [← hrcm]; exact hcl, ?_⟩
    rw [resultOf]
    simp only [hcl, dif_neg hlt]
  | succ n ih =>
    intro rc hf hle
    by_cases heq : rc = maxR
    · have hlt : ¬ rc < maxR := by omega
      obtain ⟨s, t, hcl⟩ := isRetryable_retry (h rc)
      refine ⟨s, t, by rw [← heq]; exact hcl, ?_⟩
      rw [resultOf]
      simp only [hcl, dif_neg hlt]
    · obtain ⟨s, t, hcl⟩ := isRetryable_retry (h rc)
      obtain ⟨s2, t2, hcl2, hres⟩ := ih (rc + 1) (by omega) (by omega)
      refine ⟨s2, t2, hcl2, ?_⟩
      rw [resultOf]
      simp only [hcl, dif_pos (show rc < maxR by omega)]
      exact hres

theorem attemptsUsed_exhausted (cfg : BotConfig) (att : Nat → Attempt)
    (h : ∀ n, isRetryable (att n).outcome = true) :
    ∀ (fuel rc : Nat), cfg.maxRetries - rc ≤ fuel → rc ≤ cfg.maxRetries →
    attemptsUsed cfg att rc = cfg.maxRetries - rc + 1 := by
  intro fuel
  induction fuel with
  | zero =>
    intro rc hf hle
    have hlt : ¬ rc < cfg.maxRetries := by omega
    obtain ⟨s, t, hcl⟩ := isRetryable_retry (h rc)
    rw [attemptsUsed]
    simp only [hcl, dif_neg hlt]
    omega
  | succ n ih =>
    intro rc hf hle
    by_cases heq : rc = cfg.maxRetries
    · have hlt : ¬ rc < cfg.maxRetries := by omega
      obtain ⟨s, t, hcl⟩ := isRetryable_retry (h rc)
      rw [attemptsUsed]
      simp only [hcl, dif_neg hlt]
      omega
    · obtain ⟨s, t, hcl⟩ := isRetryable_retry (h rc)
      rw [attemptsUsed]
      simp only [hcl, dif_pos (show rc < cfg.maxRetries by omega)]
      rw [ih (rc + 1) (by omega) (by omega)]
      omega

theorem attemptsUsed_of_not_retry (cfg : BotConfig) (att : Nat → Attempt) (rc : Nat)
    (h : ∀ s t, classify (att rc).outcome ≠ .retry s t) :
    attemptsUsed cfg att rc = 1 := by
  rw [attemptsUsed]
  cases hcl : classify (att rc).outcome with
  | success r => simp only
  | terminalNone => simp only
  | retry s t => exact absurd hcl (h s t)

theorem foldl_min_mem (l : List Rat) : ∀ t : Rat, l.foldl min t = t ∨ l.foldl min t ∈ l := by
  induction l with
  | nil => intro t; left; rfl
  | cons a l ih =>
    intro t
    rcases ih (min t a) with h | h
    · rcases min_choice t a with hm | hm
      · left; rw [List.foldl_cons, h, hm]
      · right; rw [List.foldl_cons, h, hm]; exact List.mem_cons_self a l
    · right; exact List.mem_cons_of_mem a h

theorem backoffs_aux (cfg : BotConfig) (att : Nat → Attempt) :
    ∀ (fuel rc : Nat), cfg.maxRetries - rc ≤ fuel → ∀ (ms : List Msg) (st : ClientState),
    backoffs (generateResponse cfg att ms rc st).trace =
      (List.range' rc (attemptsUsed cfg att rc - 1)).filterMap
        (fun n => backoffOf cfg n (att n).outcome) := by
  intro fuel
  induction fuel with
  | zero =>
    intro rc hrc ms st
    rw [generateResponse, attemptsUsed]
    cases hcl : classify (att rc).outcome with
    | success reply =>
      simp only [hcl]
      by_cases hok : (checkRateLimit cfg st).2 <;>
        simp [hok, backoffs, Event.backoffAmount]
    | terminalNone =>
      simp only [hcl]
      by_cases hok : (checkRateLimit cfg st).2 <;>
        simp [hok, backoffs, Event.backoffAmount]
    | retry sleeps terminal =>
      simp only [hcl, dif_neg (show ¬ rc < cfg.maxRetries by omega)]
      by_cases hok : (checkRateLimit cfg st).2 <;>
        simp [hok, backoffs, Event.backoffAmount]
  | succ n ih =>
    intro rc hrc ms st
    rw [generateResponse, attemptsUsed]
    cases hcl : classify (att rc).outcome with
    | success reply =>
      simp only [hcl]
      by_cases hok : (checkRateLimit cfg st).2 <;>
        simp [hok, backoffs, Event.backoffAmount]
    | terminalNone =>
      simp only [hcl]
      by_cases hok : (checkRateLimit cfg st).2 <;>
        simp [hok, backoffs, Event.backoffAmount]
    | retry sleeps terminal =>
      by_cases hlt : rc < cfg.maxRetries
      · have ihr : ∀ st1, List.filterMap Event.backoffAmount
            (generateResponse cfg att (addSystemPrompt cfg ms) (rc + 1) st1).trace =
            (List.range' (rc + 1) (attemptsUsed cfg att (rc + 1) - 1)).filterMap
              (fun n => backoffOf cfg n (att n).outcome) := by
          intro st1
          have hr := ih (rc + 1) (by omega) (addSystemPrompt cfg ms) st1
          simpa [backoffs] using hr
        have hsucc : attemptsUsed cfg att (rc + 1) =
            (attemptsUsed cfg att (rc + 1) - 1) + 1 := by
          have := attemptsUsed_pos cfg att (rc + 1)
          omega
        have hrange : List.range' rc (attemptsUsed cfg att (rc + 1)) =
            rc :: List.range' (rc + 1) (attemptsUsed cfg att (rc + 1) - 1) := by
          conv_lhs => rw [hsucc]
          exact List.range'_succ rc _ 1
        have hbackoffOf := backoffOf_of_classify cfg rc hcl
        simp only [hcl, dif_pos hlt, Nat.add_sub_cancel, hrange]
        by_cases hok : (checkRateLimit cfg st).2 <;> cases sleeps <;>
          simp [hok, backoffs, Event.backoffAmount, List.filterMap_cons, hbackoffOf, ihr]
      · simp only [hcl, dif_neg hlt]
        by_cases hok : (checkRateLimit cfg st).2 <;>
          simp [hok, backoffs, Event.backoffAmount]

theorem generateResponse_backoffs (cfg : BotConfig) (att : Nat → Attempt)
    (ms : List Msg) (rc : Nat) (st : ClientState) :
    backoffs (generateResponse cfg att ms rc st).trace =
      (List.range' rc (attemptsUsed cfg att rc - 1)).filterMap
        (fun n => backoffOf cfg n (att n).outcome) :=
  backoffs_aux cfg att (cfg.maxRetries - rc) rc le_rfl ms st

theorem listMin_mem {l : List Rat} (h : l ≠ []) : listMin l ∈ l := by
  cases l with
  | nil => exact absurd rfl h
  | cons t ts =>
    rcases foldl_min_mem ts t with h1 | h1
    · show ts.foldl min t ∈ t :: ts
      rw [h1]; exact List.mem_cons_self _ _
    · exact List.mem_cons_of_mem _ h1

theorem checkRateLimit_mem_window (cfg : BotConfig) (st : ClientState) {t : Rat}
    (h : t ∈ (checkRateLimit cfg st).1.requestTimes) :
    st.now - t < cfg.rateLimitWindow := by
  simp only [checkRateLimit, List.mem_filter] at h
  exact_mod_cast of_decide_eq_true h.2

theorem waitForRateLimit_deficit (cfg : BotConfig) (st : ClientState)
    (hne : (checkRateLimit cfg st).1.requestTimes ≠ []) :
    waitForRateLimit cfg (checkRateLimit cfg st).1 =
      cfg.rateLimitWindow - (st.now - listMin (checkRateLimit cfg st).1.requestTimes) ∧
    0 < cfg.rateLimitWindow - (st.now - listMin (checkRateLimit cfg st).1.requestTimes) := by
  have hmem := listMin_mem hne
  have hprop := checkRateLimit_mem_window cfg st hmem
  have hpos : 0 < cfg.rateLimitWindow -
      (st.now - listMin (checkRateLimit cfg st).1.requestTimes) := by linarith
  refine ⟨?_, hpos⟩
  rw [waitForRateLimit]
  rw [if_neg (by simp [List.isEmpty_iff, hne])]
  simp only
  rw [if_pos]
  · rfl
  · exact hpos

theorem generateResponse_trace_over (cfg : BotConfig) (att : Nat → Attempt)
    (ms : List Msg) (rc : Nat) (st : ClientState)
    (hover : (checkRateLimit cfg st).2 = false) :
    ∃ tr, (generateResponse cfg att ms rc st).trace =
      Event.budgetCheck ::
        Event.rateWait (waitForRateLimit cfg (checkRateLimit cfg st).1) :: tr := by
  rw [generateResponse]
  cases hcl : classify (att rc).outcome with
  | success reply => simp [hcl, hover]
  | terminalNone => simp [hcl, hover]
  | retry sleeps terminal =>
    by_cases hlt : rc < cfg.maxRetries
    · simp only [hcl, dif_pos hlt]
      simp [hover]
    · simp only [hcl, dif_neg hlt]
      simp [hover]

theorem recordedTimes_attemptBlock (w : Option Rat) (t : Rat) (p : RequestPayload)
    (back : Option Rat) : recordedTimes (attemptBlock w t p back) = [t] := by
  cases w <;> cases back <;>
    simp [recordedTimes, attemptBlock, Event.recordTime]

theorem blocks_aux (cfg : BotConfig) (att : Nat → Attempt) :
    ∀ (fuel rc : Nat), cfg.maxRetries - rc ≤ fuel → ∀ (ms : List Msg) (st : ClientState),
    ∃ blocks : List (Option Rat × Rat × RequestPayload × Option Rat),
      (generateResponse cfg att ms rc st).trace =
        (blocks.map fun b => attemptBlock b.1 b.2.1 b.2.2.1 b.2.2.2).join ∧
      blocks.length = attemptsUsed cfg att rc := by
  intro fuel
  induction fuel with
  | zero =>
    intro rc hrc ms st
    rw [generateResponse, attemptsUsed]
    cases hcl : classify (att rc).outcome with
    | success reply =>
      simp only [hcl]
      by_cases hok : (checkRateLimit cfg st).2
      · exact ⟨[(none, (checkRateLimit cfg st).1.now,
          buildPayload cfg (addSystemPrompt cfg ms), none)], by simp [hok, attemptBlock], by simp⟩
      · exact ⟨[(some (waitForRateLimit cfg (checkRateLimit cfg st).1),
          (checkRateLimit cfg st).1.now + waitForRateLimit cfg (checkRateLimit cfg st).1,
          buildPayload cfg (addSystemPrompt cfg ms), none)], by simp [hok, attemptBlock], by simp⟩
    | terminalNone =>
      simp only [hcl]
      by_cases hok : (checkRateLimit cfg st).2
      · exact ⟨[(none, (checkRateLimit cfg st).1.now,
          buildPayload cfg (addSystemPrompt cfg ms), none)], by simp [hok, attemptBlock], by simp⟩
      · exact ⟨[(some (waitForRateLimit cfg (checkRateLimit cfg st).1),
          (checkRateLimit cfg st).1.now + waitForRateLimit cfg (checkRateLimit cfg st).1,
          buildPayload cfg (addSystemPrompt cfg ms), none)], by simp [hok, attemptBlock], by simp⟩
    | retry sleeps terminal =>
      simp only [hcl, dif_neg (show ¬ rc < cfg.maxRetries by omega)]
      by_cases hok : (checkRateLimit cfg st).2
      · exact ⟨[(none, (checkRateLimit cfg st).1.now,
          buildPayload cfg (addSystemPrompt cfg ms), none)], by simp [hok, attemptBlock], by simp⟩
      · exact ⟨[(some (waitForRateLimit cfg (checkRateLimit cfg st).1),
          (checkRateLimit cfg st).1.now + waitForRateLimit cfg (checkRateLimit cfg st).1,
          buildPayload cfg (addSystemPrompt cfg ms), none)], by simp [hok, attemptBlock], by simp⟩
  | succ n ih =>
    intro rc hrc ms st
    rw [generateResponse, attemptsUsed]
    cases hcl : classify (att rc).outcome with
    | success reply =>
      simp only [hcl]
      by_cases hok : (checkRateLimit cfg st).2
      · exact ⟨[(none, (checkRateLimit cfg st).1.now,
          buildPayload cfg (addSystemPrompt cfg ms), none)], by simp [hok, attemptBlock], by simp⟩
      · exact ⟨[(some (waitForRateLimit cfg (checkRateLimit cfg st).1),
          (checkRateLimit cfg st).1.now + waitForRateLimit cfg (checkRateLimit cfg st).1,
          buildPayload cfg (addSystemPrompt cfg ms), none)], by simp [hok, attemptBlock], by simp⟩
    | terminalNone =>
      simp only [hcl]
      by_cases hok : (checkRateLimit cfg st).2
      · exact ⟨[(none, (checkRateLimit cfg st).1.now,
          buildPayload cfg (addSystemPrompt cfg ms), none)], by simp [hok, attemptBlock], by simp⟩
      · exact ⟨[(some (waitForRateLimit cfg (checkRateLimit cfg st).1),
          (checkRateLimit cfg st).1.now + waitForRateLimit cfg (checkRateLimit cfg st).1,
          buildPayload cfg (addSystemPrompt cfg ms), none)], by simp [hok, attemptBlock], by simp⟩
    | retry sleeps terminal =>
      by_cases hlt : rc < cfg.maxRetries
      · simp only [hcl, dif_pos hlt]
        by_cases hok : (checkRateLimit cfg st).2 <;> cases hs : sleeps
        · obtain ⟨bs, hb1, hb2⟩ := ih (rc + 1) (by omega) (addSystemPrompt cfg ms)
            ⟨(checkRateLimit cfg st).1.requestTimes ++ [(checkRateLimit cfg st).1.now],
              (checkRateLimit cfg st).1.now + (att rc).duration⟩
          refine ⟨(none, (checkRateLimit cfg st).1.now,
            buildPayload cfg (addSystemPrompt cfg ms), none) :: bs, ?_, by simp [hb2]⟩
          simp [hok, attemptBlock, hb1]
        · obtain ⟨bs, hb1, hb2⟩ := ih (rc + 1) (by omega) (addSystemPrompt cfg ms)
            ⟨(checkRateLimit cfg st).1.requestTimes ++ [(checkRateLimit cfg st).1.now],
              (checkRateLimit cfg st).1.now + (att rc).duration + retryDelay cfg rc⟩
          refine ⟨(none, (checkRateLimit cfg st).1.now,
            buildPayload cfg (addSystemPrompt cfg ms), some (retryDelay cfg rc)) :: bs, ?_,
            by simp [hb2]⟩
          simp [hok, attemptBlock, hb1]
        · obtain ⟨bs, hb1, hb2⟩ := ih (rc + 1) (by omega) (addSystemPrompt cfg ms)
            ⟨(checkRateLimit cfg st).1.requestTimes ++
              [(checkRateLimit cfg st).1.now + waitForRateLimit cfg (checkRateLimit cfg st).1],
              (checkRateLimit cfg st).1.now + waitForRateLimit cfg (checkRateLimit cfg st).1 +
                (att rc).duration⟩
          refine ⟨(some (waitForRateLimit cfg (checkRateLimit cfg st).1),
            (checkRateLimit cfg st).1.now + waitForRateLimit cfg (checkRateLimit cfg st).1,
            buildPayload cfg (addSystemPrompt cfg ms), none) :: bs, ?_, by simp [hb2]⟩
          simp [hok, attemptBlock, hb1]
        · obtain ⟨bs, hb1, hb2⟩ := ih (rc + 1) (by omega) (addSystemPrompt cfg ms)
            ⟨(checkRateLimit cfg st).1.requestTimes ++
              [(checkRateLimit cfg st).1.now + waitForRateLimit cfg (checkRateLimit cfg st).1],
              (checkRateLimit cfg st).1.now + waitForRateLimit cfg (checkRateLimit cfg st).1 +
                (att rc).duration + retryDelay cfg rc⟩
          refine ⟨(some (waitForRateLimit cfg (checkRateLimit cfg st).1),
            (checkRateLimit cfg st).1.now + waitForRateLimit cfg (checkRateLimit cfg st).1,
            buildPayload cfg (addSystemPrompt cfg ms), some (retryDelay cfg rc)) :: bs, ?_,
            by simp [hb2]⟩
          simp [hok, attemptBlock, hb1]
      · simp only [hcl, dif_neg hlt]
        by_cases hok : (checkRateLimit cfg st).2
        · exact ⟨[(none, (checkRateLimit cfg st).1.now,
            buildPayload cfg (addSystemPrompt cfg ms), none)], by simp [hok, attemptBlock], by simp⟩
        · exact ⟨[(some (waitForRateLimit cfg (checkRateLimit cfg st).1),
            (checkRateLimit cfg st).1.now + waitForRateLimit cfg (checkRateLimit cfg st).1,
            buildPayload cfg (addSystemPrompt cfg ms), none)], by simp [hok, attemptBlock], by simp⟩

theorem generateResponse_blocks (cfg : BotConfig) (att : Nat → Attempt)
    (ms : List Msg) (rc : Nat) (st : ClientState) :
    ∃ blocks : List (Option Rat × Rat × RequestPayload × Option Rat),
      (generateResponse cfg att ms rc st).trace =
        (blocks.map fun b => attemptBlock b.1 b.2.1 b.2.2.1 b.2.2.2).join ∧
      blocks.length = attemptsUsed cfg att rc :=
  blocks_aux cfg att (cfg.maxRetries - rc) rc le_rfl ms st

theorem appendTurn_lastN (m : Nat) (done : List Turn) (t : Turn) :
    appendTurn m (lastN m done) t = lastN m (done ++ [t]) := by
  unfold appendTurn lastN
  have hlen : (done.drop (done.length - m)).length = done.length - (done.length - m) :=
    List.length_drop _ _
  have key : done.drop (done.length - m) ++ [t] =
      (done ++ [t]).drop (done.length - m) :=
    (List.drop_append_of_le_length (by omega)).symm
  rw [key]
  simp only [List.length_drop, List.length_append, List.length_cons, List.length_nil]
  by_cases h : m < done.length + 1 - (done.length - m)
  · rw [if_pos (by omega)]
    rw [List.drop_drop]
    congr 1
    omega
  · rw [if_neg (by omega)]
    congr 1
    omega

theorem foldl_appendTurn_lastN (m : Nat) (ts : List Turn) :
    ∀ done : List Turn, ts.foldl (appendTurn m) (lastN m done) = lastN m (done ++ ts) := by
  induction ts with
  | nil => intro done; simp [List.foldl_nil]
  | cons t ts ih =>
    intro done
    rw [List.foldl_cons, appendTurn_lastN, ih (done ++ [t])]
    simp [lastN]

theorem lastN_nil (m : Nat) : lastN m [] = [] := by
  simp [lastN]

theorem lastN_length_le (m : Nat) (l : List Turn) : (lastN m l).length ≤ m := by
  simp only [lastN, List.length_drop]
  omega

theorem context_append_same (s : ChatManager) (key : ConversationKey) (t : Turn) :
    (s.append key t).context key = appendTurn s.maxTurns (s.context key) t := by
  simp [ChatManager.append, ChatManager.context]

theorem append_maxTurns (s : ChatManager) (key : ConversationKey) (t : Turn) :
    (s.append key t).maxTurns = s.maxTurns := rfl

theorem context_foldl_append (key : ConversationKey) (ts : List Turn) :
    ∀ (s : ChatManager),
    (ts.foldl (fun acc t => acc.append key t) s).context key =
      ts.foldl (appendTurn s.maxTurns) (s.context key) := by
  induction ts with
  | nil => intro s; rfl
  | cons t ts ih =>
    intro s
    rw [List.foldl_cons, List.foldl_cons, ih (s.append key t), context_append_same,
      append_maxTurns]

theorem recordedTimes_blocks (blocks : List (Option Rat × Rat × RequestPayload × Option Rat)) :
    recordedTimes ((blocks.map fun b => attemptBlock b.1 b.2.1 b.2.2.1 b.2.2.2).join) =
      blocks.map fun b => b.2.1 := by
  induction blocks with
  | nil => simp [recordedTimes]
  | cons b bs ih =>
    simp only [List.map_cons, List.join_cons]
    rw [recordedTimes, List.filterMap_append, ← recordedTimes, ← recordedTimes,
      recordedTimes_attemptBlock, ih]
    rfl

/-!
## Concrete scripts and configurations used by the claim instances
-/

/-- A remote that times out on every attempt (after the 30-unit deadline). -/
def allTimeout : Nat → Attempt := fun _ => ⟨.timeout, 30⟩

/-- A remote that instantly answers HTTP 200 with reply `" hello "`. -/
def okAttempt : Nat → Attempt := fun _ => ⟨.http 200 ⟨some [some " hello "]⟩, 0⟩

/-- A remote that instantly answers HTTP 200 whose first choice lacks a
`message.content` string. -/
def badContentAttempt : Nat → Attempt := fun _ => ⟨.http 200 ⟨some [none]⟩, 0⟩

/-- A remote that instantly answers HTTP 200 with the empty-string reply. -/
def emptyReplyAttempt : Nat → Attempt := fun _ => ⟨.http 200 ⟨some [some ""]⟩, 0⟩

/-- The default configuration with `RATE_LIMIT_REQUESTS=2` (budget `B = 2`,
window `W = 60`). -/
def cfgB2W60 : BotConfig :=
  { defaultConfig with rateLimitRequests := 2, rateLimitWindow := 60 }

/-- First of three back-to-back calls under budget 2 / window 60, starting
from an empty ledger at time 0. -/
def backToBack1 : GenOutput := generateResponse cfgB2W60 okAttempt [] 0 ⟨[], 0⟩

/-- Second back-to-back call, issued as soon as the first returns. -/
def backToBack2 : GenOutput := generateResponse cfgB2W60 okAttempt [] 0 backToBack1.state

/-- Third back-to-back call, issued as soon as the second returns. -/
def backToBack3 : GenOutput := generateResponse cfgB2W60 okAttempt [] 0 backToBack2.state

/-!
## The claims
-/

/-- C1, counterexample: with the default configuration
(`retry_delay_base = 1`, `max_retries = 3`) and a remote that times out on
every attempt, the call performs 4 attempts yet inserts no backoff sleep at
all between them, whereas the claim requires a delay of
`retry_delay_base * 2 ^ n` (here `1, 2, 4`) between consecutive attempts
for every retryable failure kind, timeouts included: timeout expiry is not
handled like a retryable server error, which would have slept. -/
theorem c1_counterexample :
    numSends (generateResponse defaultConfig allTimeout [] 0 ⟨[], 0⟩).trace = 4 ∧
    backoffs (generateResponse defaultConfig allTimeout [] 0 ⟨[], 0⟩).trace = [] ∧
    backoffs (generateResponse defaultConfig allTimeout [] 0 ⟨[], 0⟩).trace ≠
      [retryDelay defaultConfig 0, retryDelay defaultConfig 1, retryDelay defaultConfig 2] ∧
    retryDelay defaultConfig 0 = 1 := by
  refine ⟨?_, ?_, ?_, ?_⟩
  · rw [generateResponse_numSends]
    simp [attemptsUsed, classify, allTimeout, defaultConfig]
  · rw [generateResponse_backoffs]
    simp [attemptsUsed, classify, allTimeout, defaultConfig, backoffOf, List.range']
  · rw [generateResponse_backoffs]
    simp [attemptsUsed, classify, allTimeout, defaultConfig, backoffOf, List.range']
  · simp [retryDelay, defaultConfig]

/-- C1, amended: the backoff sleeps of a run are exactly
`retry_delay_base * 2 ^ n` after each retried attempt `n` that failed with
a remote 429 or another non-200 HTTP status, while a retried timeout or
transport/other exception inserts no delay at all (immediate retry). -/
theorem c1_theorem (cfg : BotConfig) (att : Nat → Attempt) (ms : List Msg)
    (rc : Nat) (st : ClientState) :
    (backoffs (generateResponse cfg att ms rc st).trace =
      (List.range' rc (attemptsUsed cfg att rc - 1)).filterMap
        (fun n => backoffOf cfg n (att n).outcome)) ∧
    (∀ n body, backoffOf cfg n (.http 429 body) = some (cfg.retryDelayBase * 2 ^ n)) ∧
    (∀ n status body, status ≠ 200 →
      backoffOf cfg n (.http status body) = some (cfg.retryDelayBase * 2 ^ n)) ∧
    (∀ n, backoffOf cfg n .timeout = none) ∧
    (∀ n e, backoffOf cfg n (.exc e) = none) := by
  refine ⟨generateResponse_backoffs cfg att ms rc st, ?_, ?_, fun n => rfl, fun n e => rfl⟩
  · intro n body
    simp [backoffOf, retryDelay]
  · intro n status body h
    simp [backoffOf, h, retryDelay]

/-- C2, confirmed: with `max_retries = 3`, a call whose every attempt fails
with a retryable failure performs exactly 4 attempts (the initial one plus
3 retries), never a 5th, and returns a user-facing message string as a
normal value — never a success reply (and never an exception: every path of
the embedded function is a `return`). -/
theorem c2_theorem (cfg : BotConfig) (h3 : cfg.maxRetries = 3)
    (att : Nat → Attempt) (hr : ∀ n, isRetryable (att n).outcome = true)
    (ms : List Msg) (st : ClientState) :
    numSends (generateResponse cfg att ms 0 st).trace = 4 ∧
    (∃ s, (generateResponse cfg att ms 0 st).result.toPy = some s) ∧
    (∀ r, (generateResponse cfg att ms 0 st).result ≠ .success r) := by
  have hused := attemptsUsed_exhausted cfg att hr cfg.maxRetries 0 (by omega) (by omega)
  obtain ⟨s, t, hcl, hres⟩ :=
    resultOf_exhausted cfg.maxRetries att hr cfg.maxRetries 0 (by omega) (by omega)
  have hprops := retry_terminal_props hcl
  refine ⟨?_, ?_, ?_⟩
  · rw [generateResponse_numSends, hused, h3]
  · rw [generateResponse_result, hres]
    exact hprops.1
  · rw [generateResponse_result, hres]
    exact hprops.2

/-- C2 witness: the default configuration (`max_retries = 3`) with a remote
that always times out: 4 attempts, a returned message, no success. -/
theorem c2_witness :
    numSends (generateResponse defaultConfig allTimeout [] 0 ⟨[], 0⟩).trace = 4 ∧
    (∃ s, (generateResponse defaultConfig allTimeout [] 0 ⟨[], 0⟩).result.toPy = some s) ∧
    (∀ r, (generateResponse defaultConfig allTimeout [] 0 ⟨[], 0⟩).result ≠ .success r) :=
  c2_theorem defaultConfig rfl allTimeout (fun _ => rfl) [] ⟨[], 0⟩

/-- C3, counterexample: for the input `[user "hi", system "x"]` — a list
holding a system turn, but not first — the request sent by
`generate_response` holds two system turns, not exactly one. -/
theorem c3_counterexample :
    (sentPayloads (generateResponse defaultConfig okAttempt
        [⟨some "user", "hi"⟩, ⟨some "system", "x"⟩] 0 ⟨[], 0⟩).trace).map
      (fun p => (p.messages.filter (fun m => m.role = some "system")).length) = [2] := by
  rw [generateResponse_sentPayloads]
  simp [attemptsUsed, classify, okAttempt, addSystemPrompt, buildPayload, defaultConfig]

/-- C3, amended: every attempt of a call sends the same request, whose
message list is the input transformed by `addSystemPrompt`: it always
starts with a system turn; an input already starting with one is sent
unchanged (nothing inserted, duplicated or reordered); an input not
starting with one gets exactly the configured system turn prepended
(idempotent across retries); and an input holding no system turn at all
yields a request with exactly one.  The original claim fails only for an
input holding a system turn at a non-first position, where the request
holds more than one. -/
theorem c3_theorem (cfg : BotConfig) (att : Nat → Attempt) (ms : List Msg)
    (rc : Nat) (st : ClientState) :
    sentPayloads (generateResponse cfg att ms rc st).trace =
      List.replicate (attemptsUsed cfg att rc) (buildPayload cfg (addSystemPrompt cfg ms)) ∧
    startsWithSystem (addSystemPrompt cfg ms) = true ∧
    addSystemPrompt cfg (addSystemPrompt cfg ms) = addSystemPrompt cfg ms ∧
    (startsWithSystem ms = true → addSystemPrompt cfg ms = ms) ∧
    (startsWithSystem ms = false →
      addSystemPrompt cfg ms = Msg.mk (some "system") cfg.systemPrompt :: ms) ∧
    (ms.filter (fun m => m.role = some "system") = [] →
      ((addSystemPrompt cfg ms).filter (fun m => m.role = some "system")).length = 1) := by
  refine ⟨generateResponse_sentPayloads cfg att ms rc st,
    startsWithSystem_addSystemPrompt cfg ms,
    addSystemPrompt_idem cfg ms,
    addSystemPrompt_of_starts cfg ms,
    addSystemPrompt_of_not_starts cfg ms, ?_⟩
  intro hnone
  have hns : startsWithSystem ms = false := by
    cases ms with
    | nil => rfl
    | cons m rest =>
      by_cases h : m.role = some "system"
      · simp [List.filter_cons, h] at hnone
      · simp [startsWithSystem, h]
  rw [addSystemPrompt_of_not_starts cfg ms hns]
  simp [List.filter_cons, hnone]

/-- C10, confirmed: when the input list does not start with a system turn,
the caller's list observed after the call is the configured system turn
prepended to it — one element longer; when it does, the caller's list is
returned unchanged. -/
theorem c10_theorem (cfg : BotConfig) (att : Nat → Attempt) (ms : List Msg)
    (rc : Nat) (st : ClientState) :
    (startsWithSystem ms = false →
      (generateResponse cfg att ms rc st).messages =
        Msg.mk (some "system") cfg.systemPrompt :: ms ∧
      (generateResponse cfg att ms rc st).messages.length = ms.length + 1) ∧
    (startsWithSystem ms = true → (generateResponse cfg att ms rc st).messages = ms) := by
  constructor
  · intro h
    rw [generateResponse_messages, addSystemPrompt_of_not_starts cfg ms h]
    exact ⟨rfl, by simp⟩
  · intro h
    rw [generateResponse_messages, addSystemPrompt_of_starts cfg ms h]

/-- C4, counterexample: a 200 response whose nonempty `choices` lacks the
`message.content` string is not treated as a terminal failure: with the
default configuration it is retried like a transport failure — 4 attempts
in all — and the call ends in the unexpected-error message, not in the
distinct no-reply signal `None`. -/
theorem c4_counterexample :
    numSends (generateResponse defaultConfig badContentAttempt [] 0 ⟨[], 0⟩).trace = 4 ∧
    (generateResponse defaultConfig badContentAttempt [] 0 ⟨[], 0⟩).result.toPy =
      some ("Sorry, I encountered an unexpected error: " ++ keyErrorContent) := by
  constructor
  · rw [generateResponse_numSends]
    simp [attemptsUsed, classify, badContentAttempt, defaultConfig]
  · rw [generateResponse_result]
    simp [resultOf, classify, badContentAttempt, defaultConfig, GenResult.toPy]

/-- C4, amended: only a 200 response whose `choices` is missing or empty is
terminal for the call — no retry is performed after it and the call returns
the Python `None`, distinct from the timeout and rate-limit return values;
a 200 response whose first choice lacks `message.content` instead raises
internally and is retried like a transport/other exception. -/
theorem c4_theorem (cfg : BotConfig) (att : Nat → Attempt) (ms : List Msg)
    (rc : Nat) (st : ClientState) (body : RespBody)
    (hat : (att rc).outcome = .http 200 body)
    (hbody : body.choices = some [] ∨ body.choices = none) :
    (generateResponse cfg att ms rc st).result = .noChoices ∧
    numSends (generateResponse cfg att ms rc st).trace = 1 ∧
    GenResult.noChoices.toPy = none ∧
    GenResult.noChoices.toPy ≠ GenResult.timeoutMsg.toPy ∧
    GenResult.noChoices.toPy ≠ GenResult.rateLimitedMsg.toPy ∧
    (∀ cs, classify (.http 200 ⟨some (none :: cs)⟩) =
      .retry false (.unexpectedMsg keyErrorContent)) := by
  have hcl : classify (att rc).outcome = .terminalNone := by
    rw [hat]
    rcases hbody with h | h <;> simp [classify, h]
  refine ⟨?_, ?_, rfl, by simp [GenResult.toPy], by simp [GenResult.toPy], fun cs => rfl⟩
  · rw [generateResponse_result, resultOf]
    simp only [hcl]
  · rw [generateResponse_numSends]
    apply attemptsUsed_of_not_retry
    intro s t hc
    rw [hcl] at hc
    cases hc

/-- C4 witness: a remote answering 200 with an empty `choices` list on the
first attempt: the call returns `None` after that single attempt. -/
theorem c4_witness :
    (generateResponse defaultConfig
      (fun _ => ⟨.http 200 ⟨some []⟩, 0⟩) [] 0 ⟨[], 0⟩).result = .noChoices ∧
    numSends (generateResponse defaultConfig
      (fun _ => ⟨.http 200 ⟨some []⟩, 0⟩) [] 0 ⟨[], 0⟩).trace = 1 ∧
    GenResult.noChoices.toPy = none ∧
    GenResult.noChoices.toPy ≠ GenResult.timeoutMsg.toPy ∧
    GenResult.noChoices.toPy ≠ GenResult.rateLimitedMsg.toPy ∧
    (∀ cs, classify (.http 200 ⟨some (none :: cs)⟩) =
      .retry false (.unexpectedMsg keyErrorContent)) :=
  c4_theorem defaultConfig (fun _ => ⟨.http 200 ⟨some []⟩, 0⟩) [] 0 ⟨[], 0⟩
    ⟨some []⟩ rfl (Or.inl rfl)

/-- C5, counterexample: a 200 response whose reply field is the empty
string is a success — `generate_response` returns `"".strip() = ""` — even
though the claim allows success only for a non-empty reply field. -/
theorem c5_counterexample :
    (generateResponse defaultConfig emptyReplyAttempt [] 0 ⟨[], 0⟩).result =
      .success "" ∧
    (generateResponse defaultConfig emptyReplyAttempt [] 0 ⟨[], 0⟩).result.toPy =
      some "" := by
  have h : (generateResponse defaultConfig emptyReplyAttempt [] 0 ⟨[], 0⟩).result =
      .success "" := by
    rw [generateResponse_result]
    rw [resultOf]
    simp [classify, emptyReplyAttempt, defaultConfig]
    decide
  exact ⟨h, by rw [h]; rfl⟩

/-- C5, amended: for an attempt answered with HTTP status 200, the call
succeeds on that attempt exactly when the body has a nonempty `choices`
whose first element carries a content string — possibly empty — and the
success value is that content trimmed of surrounding whitespace. -/
theorem c5_theorem (cfg : BotConfig) (att : Nat → Attempt) (ms : List Msg)
    (rc : Nat) (st : ClientState) (body : RespBody)
    (hat : (att rc).outcome = .http 200 body) (r : String) :
    ((generateResponse cfg att ms rc st).result = .success r ∧
      numSends (generateResponse cfg att ms rc st).trace = 1) ↔
    (∃ s rest, body.choices = some (some s :: rest) ∧ pyStrip s = r) := by
  constructor
  · rintro ⟨hres, hsends⟩
    rw [generateResponse_result] at hres
    rw [generateResponse_numSends] at hsends
    rcases hbc : body.choices with _ | l
    · have hcl : classify (att rc).outcome = .terminalNone := by
        rw [hat]; simp [classify, hbc]
      rw [resultOf] at hres
      simp only [hcl] at hres
      cases hres
    · rcases l with _ | ⟨c, rest⟩
      · have hcl : classify (att rc).outcome = .terminalNone := by
          rw [hat]; simp [classify, hbc]
        rw [resultOf] at hres
        simp only [hcl] at hres
        cases hres
      · rcases c with _ | s
        · have hcl : classify (att rc).outcome =
              .retry false (.unexpectedMsg keyErrorContent) := by
            rw [hat]; simp [classify, hbc]
          by_cases hlt : rc < cfg.maxRetries
          · have hgrow : attemptsUsed cfg att rc = attemptsUsed cfg att (rc + 1) + 1 := by
              rw [attemptsUsed]
              simp [hcl, hlt]
            have hpos := attemptsUsed_pos cfg att (rc + 1)
            omega
          · rw [resultOf] at hres
            simp only [hcl, dif_neg hlt] at hres
            cases hres
        · have hcl : classify (att rc).outcome = .success (pyStrip s) := by
            rw [hat]; simp [classify, hbc]
          rw [resultOf] at hres
          simp only [hcl] at hres
          refine ⟨s, rest, rfl, ?_⟩
          cases hres
          rfl
  · rintro ⟨s, rest, hbc, hr⟩
    have hcl : classify (att rc).outcome = .success (pyStrip s) := by
      rw [hat]; simp [classify, hbc]
    constructor
    · rw [generateResponse_result, resultOf]
      simp only [hcl]
      rw [hr]
    · rw [generateResponse_numSends]
      apply attemptsUsed_of_not_retry
      intro s2 t2 hc
      rw [hcl] at hc
      cases hc

/-- C5 witness: the spec scenario — a mocked remote answering
`{choices:[{message:{content:" hello "}}]}` yields the trimmed `"hello"`
in one attempt. -/
theorem c5_witness :
    ((generateResponse defaultConfig okAttempt [] 0 ⟨[], 0⟩).result =
        .success "hello" ∧
      numSends (generateResponse defaultConfig okAttempt [] 0 ⟨[], 0⟩).trace = 1) ↔
    (∃ s rest, (RespBody.mk (some [some " hello "])).choices = some (some s :: rest) ∧
      pyStrip s = "hello") :=
  c5_theorem defaultConfig okAttempt [] 0 ⟨[], 0⟩ ⟨some [some " hello "]⟩ rfl "hello"

/-- C6, confirmed: whenever the ledger, pruned of entries older than the
window `W` before the send, still holds at least `B` entries, the call is
suspended for exactly `deficit = W - (now - oldestEntryTimestamp)`, which
is strictly positive (never a negative or skipped wait); and in the
concrete `B = 2`, `W = 60` scenario, of three back-to-back calls the third
records its attempt only at time 60 — `W` time-units after the first
call's attempt timestamp 0. -/
theorem c6_theorem (cfg : BotConfig) (att : Nat → Attempt) (ms : List Msg)
    (rc : Nat) (st : ClientState)
    (hB : 0 < cfg.rateLimitRequests)
    (hover : cfg.rateLimitRequests ≤ (checkRateLimit cfg st).1.requestTimes.length) :
    ((checkRateLimit cfg st).1.requestTimes =
        st.requestTimes.filter (fun reqTime => st.now - reqTime < cfg.rateLimitWindow) ∧
      0 < cfg.rateLimitWindow - (st.now - listMin (checkRateLimit cfg st).1.requestTimes) ∧
      waitForRateLimit cfg (checkRateLimit cfg st).1 =
        cfg.rateLimitWindow - (st.now - listMin (checkRateLimit cfg st).1.requestTimes) ∧
      ∃ tr, (generateResponse cfg att ms rc st).trace =
        Event.budgetCheck :: Event.rateWait
          (cfg.rateLimitWindow -
            (st.now - listMin (checkRateLimit cfg st).1.requestTimes)) :: tr) ∧
    (recordedTimes backToBack1.trace = [0] ∧ recordedTimes backToBack2.trace = [0] ∧
      recordedTimes backToBack3.trace = [60] ∧
      cfgB2W60.rateLimitRequests = 2 ∧ cfgB2W60.rateLimitWindow = 60) := by
  have hne : (checkRateLimit cfg st).1.requestTimes ≠ [] := by
    intro hnil
    rw [hnil] at hover
    simp at hover
    omega
  obtain ⟨heq, hpos⟩ := waitForRateLimit_deficit cfg st hne
  have hfalse : (checkRateLimit cfg st).2 = false := by
    simp only [checkRateLimit] at hover ⊢
    simp only [decide_eq_false_iff_not]
    omega
  obtain ⟨tr, htr⟩ := generateResponse_trace_over cfg att ms rc st hfalse
  rw [heq] at htr
  refine ⟨⟨rfl, hpos, heq, tr, htr⟩, ?_, ?_, ?_, rfl, rfl⟩ <;>
    simp [backToBack3, backToBack2, backToBack1, generateResponse, checkRateLimit,
      waitForRateLimit, addSystemPrompt, buildPayload, classify, okAttempt, cfgB2W60,
      defaultConfig, recordedTimes, Event.recordTime, listMin]

/-- C6 witness: budget 2, window 60, ledger `[0, 0]` at time 0: the pruned
count is 2 ≥ B, the wait is the full 60-unit deficit, and the trace opens
with the budget check and that wait. -/
theorem c6_witness :
    ((checkRateLimit cfgB2W60 ⟨[0, 0], 0⟩).1.requestTimes =
        ([0, 0] : List Rat).filter
          (fun reqTime => (0 : Rat) - reqTime < cfgB2W60.rateLimitWindow) ∧
      0 < cfgB2W60.rateLimitWindow -
        ((0 : Rat) - listMin (checkRateLimit cfgB2W60 ⟨[0, 0], 0⟩).1.requestTimes) ∧
      waitForRateLimit cfgB2W60 (checkRateLimit cfgB2W60 ⟨[0, 0], 0⟩).1 =
        cfgB2W60.rateLimitWindow -
          ((0 : Rat) - listMin (checkRateLimit cfgB2W60 ⟨[0, 0], 0⟩).1.requestTimes) ∧
      ∃ tr, (generateResponse cfgB2W60 okAttempt [] 0 ⟨[0, 0], 0⟩).trace =
        Event.budgetCheck :: Event.rateWait
          (cfgB2W60.rateLimitWindow -
            ((0 : Rat) -
              listMin (checkRateLimit cfgB2W60 ⟨[0, 0], 0⟩).1.requestTimes)) :: tr) ∧
    (recordedTimes backToBack1.trace = [0] ∧ recordedTimes backToBack2.trace = [0] ∧
      recordedTimes backToBack3.trace = [60] ∧
      cfgB2W60.rateLimitRequests = 2 ∧ cfgB2W60.rateLimitWindow = 60) :=
  c6_theorem cfgB2W60 okAttempt [] 0 ⟨[0, 0], 0⟩ (by decide)
    (by simp [checkRateLimit, cfgB2W60, defaultConfig])

/-- C7, confirmed: the event trace of every call splits into one block per
attempt, each opening with the budget check (so every backoff-delayed retry
re-enters the rate limiter) and holding exactly one ledger record
immediately followed by the network call; the ledger gains exactly one
timestamp per attempt — attempts, not successes. -/
theorem c7_theorem (cfg : BotConfig) (att : Nat → Attempt) (ms : List Msg)
    (rc : Nat) (st : ClientState) :
    ∃ blocks : List (Option Rat × Rat × RequestPayload × Option Rat),
      (generateResponse cfg att ms rc st).trace =
        (blocks.map fun b => attemptBlock b.1 b.2.1 b.2.2.1 b.2.2.2).join ∧
      blocks.length = attemptsUsed cfg att rc ∧
      (recordedTimes (generateResponse cfg att ms rc st).trace).length =
        attemptsUsed cfg att rc := by
  obtain ⟨blocks, h1, h2⟩ := generateResponse_blocks cfg att ms rc st
  refine ⟨blocks, h1, h2, ?_⟩
  rw [h1, recordedTimes_blocks, List.length_map, h2]

/-- C8, confirmed (store modelled from the spec): after any finite sequence
of appends on one key into a fresh store, `context(key)` equals the last
`maxTurns` appended turns in call order — the oldest turns are evicted
first, regardless of role — and never exceeds `maxTurns`. -/
theorem c8_theorem (m : Nat) (key : ConversationKey) (ts : List Turn) :
    (ts.foldl (fun acc t => acc.append key t) (ChatManager.empty m)).context key =
      lastN m ts ∧
    ((ts.foldl (fun acc t => acc.append key t) (ChatManager.empty m)).context key).length
      ≤ m := by
  have h0 : (ChatManager.empty m).context key = lastN m [] := by
    rw [lastN_nil]
    rfl
  have hctx : (ts.foldl (fun acc t => acc.append key t) (ChatManager.empty m)).context key =
      lastN m ts := by
    rw [context_foldl_append, h0]
    rw [show (ChatManager.empty m).maxTurns = m from rfl]
    rw [foldl_appendTurn_lastN]
    simp
  exact ⟨hctx, by rw [hctx]; exact lastN_length_le m ts⟩

/-- C9, counterexample: the core client itself puts the configured max
reply length into every request it sends — the payload carries
`max_tokens = max_response_length` (2000 in the default configuration) —
so the value is not consumed only by the external chunking layer. -/
theorem c9_counterexample :
    (sentPayloads (generateResponse defaultConfig okAttempt [] 0 ⟨[], 0⟩).trace).map
      RequestPayload.maxTokens = [2000] ∧
    defaultConfig.maxResponseLength = 2000 := by
  constructor
  · rw [generateResponse_sentPayloads]
    simp [attemptsUsed, classify, okAttempt, buildPayload, defaultConfig]
  · rfl

/-- C9, amended: the core passes the configured max reply length verbatim
as the `max_tokens` field of every request payload it sends — delegating
any enforcement to the remote — and never itself truncates or alters the
reply: the returned result is unchanged under any change of
`max_response_length`. -/
theorem c9_theorem (cfg : BotConfig) (att : Nat → Attempt) (ms : List Msg)
    (rc : Nat) (st : ClientState) (k : Nat) :
    (sentPayloads (generateResponse cfg att ms rc st).trace).map RequestPayload.maxTokens =
      List.replicate (attemptsUsed cfg att rc) cfg.maxResponseLength ∧
    (generateResponse { cfg with maxResponseLength := k } att ms rc st).result =
      (generateResponse cfg att ms rc st).result := by
  constructor
  · rw [generateResponse_sentPayloads, List.map_replicate]
    rfl
  · rw [generateResponse_result, generateResponse_result]

end DeepseekBot
